import Mathlib

/-!
Shallow embedding of `src/finalapp.py`, a pandas/Streamlit dashboard over a
CSV of hospital patient visits.  The script is linear: load + derive
`length_of_stay`, filter by sidebar criteria, compute aggregates, render,
search, export.  Numeric columns are embedded as `Int`, floating-point
statistics as `ℚ` (exact field arithmetic in place of float64), calendar
dates as `Int` days, and pandas `NaN` / raised exceptions as `Option`.
-/

namespace Finalapp

attribute [local semireducible] Rat.add Rat.mul Rat.inv Rat.sub Rat.ofScientific

/-- One row of the loaded dataframe.  `load_data` (finalapp.py lines 17-24)
reads the seven CSV columns, parses the two date columns and derives
`length_of_stay = departure_date - arrival_date` in whole days.  The
`age_group` column is absent (`none`) until line 173 assigns it.
`name` is `Option` because pandas represents a missing cell as `NaN`. -/
structure Record where
  patient_id : Int
  name : Option String
  age : Int
  service : String
  arrival_date : Int
  departure_date : Int
  satisfaction : Int
  length_of_stay : Int
  age_group : Option String
deriving DecidableEq, Repr

/-- The sidebar selections (finalapp.py lines 40-60): a multiselect of
services, an inclusive age range slider and a minimum satisfaction score. -/
structure Criteria where
  services : List String
  age_min : Int
  age_max : Int
  min_satisfaction : Int
deriving DecidableEq, Repr

/-- The boolean mask of finalapp.py lines 63-68:
`df['service'].isin(services) & (age >= lo) & (age <= hi) & (satisfaction >= min)`. -/
def passesFilter (c : Criteria) (r : Record) : Bool :=
  c.services.contains r.service
    && decide (c.age_min ≤ r.age) && decide (r.age ≤ c.age_max)
    && decide (c.min_satisfaction ≤ r.satisfaction)

/-- `filtered_df = df[mask]` (lines 63-68): boolean-mask row selection keeps
exactly the rows whose mask entry is true, in their original order. -/
def filtered_df (df : List Record) (c : Criteria) : List Record :=
  df.filter (passesFilter c)

/-- `pd.cut(age, bins=[0, 18, 35, 50, 65, 100], labels=[...])`
(lines 173-175).  `pd.cut` with default `right=True` and no
`include_lowest` forms the left-open intervals (0,18], (18,35], (35,50],
(50,65], (65,100]; a value outside every interval (age ≤ 0 or age > 100)
is mapped to `NaN`, embedded here as `none`. -/
def age_group (age : Int) : Option String :=
  if 0 < age ∧ age ≤ 18 then some "0-18"
  else if 18 < age ∧ age ≤ 35 then some "19-35"
  else if 35 < age ∧ age ≤ 50 then some "36-50"
  else if 50 < age ∧ age ≤ 65 then some "51-65"
  else if 65 < age ∧ age ≤ 100 then some "65+"
  else none

/-- The code-point order in which Python (and hence pandas) compares
strings, embedded as the lexicographic order on the character lists (the
built-in `String` order is not kernel-computable). -/
def strLe (a b : String) : Prop := a.data ≤ b.data

instance : DecidableRel strLe := fun a b => inferInstanceAs (Decidable (a.data ≤ b.data))

instance : IsTotal String strLe := ⟨fun a b => le_total a.data b.data⟩

instance : IsTrans String strLe := ⟨fun _ _ _ h1 h2 => le_trans h1 h2⟩

/-- Largest frequency of any value of `xs` (0 for the empty list):
the count that `Series.mode` keeps. -/
def maxCount (xs : List String) : Nat :=
  (xs.dedup.map xs.count).foldr max 0

/-- `Series.mode()` (pandas): the list of values attaining the maximal
frequency, returned **sorted in ascending value order** (pandas sorts the
tied modes; the input order of the series does not matter). -/
def modeList (xs : List String) : List String :=
  (List.insertionSort strLe xs.dedup).filter (fun v => xs.count v = maxCount xs)

/-- `filtered_df['service'].mode()[0]` (line 96).  Indexing `[0]` into the
mode series raises a `KeyError` when the series is empty (empty filtered
frame); the raise is embedded as `none`. -/
def most_common_service (rows : List Record) : Option String :=
  (modeList (rows.map Record.service)).head?

/-- Arithmetic mean, as pandas `Series.mean` computes it; mean of the empty
series would be `0/0 = 0` here where pandas produces `NaN`, so the empty
case is only ever used under an emptiness guard. -/
def mean (xs : List ℚ) : ℚ := xs.sum / xs.length

/-- `Series.mean` with pandas' `NaN`-on-empty made explicit. -/
def meanOpt (xs : List ℚ) : Option ℚ :=
  if xs = [] then none else some (mean xs)

/-- The satisfaction column of a row, as the float pandas aggregates. -/
def satQ (r : Record) : ℚ := (r.satisfaction : ℚ)

/-- The length-of-stay column of a row, as a float. -/
def losQ (r : Record) : ℚ := (r.length_of_stay : ℚ)

/-- Group keys of `groupby('service')`: pandas collects the distinct values
present and (with default `sort=True`) returns the groups in ascending key
order. -/
def groupKeys (xs : List String) : List String :=
  List.insertionSort strLe xs.dedup

/-- The satisfaction values of the rows whose service equals `k`. -/
def serviceVals (rows : List Record) (k : String) : List ℚ :=
  (rows.filter (fun r => r.service = k)).map satQ

/-- `filtered_df.groupby('service')['satisfaction'].mean()` (line 103,
before the `sort_values`): one mean per observed service, keys ascending. -/
def serviceMeans (rows : List Record) : List (String × ℚ) :=
  (groupKeys (rows.map Record.service)).map (fun k => (k, mean (serviceVals rows k)))

/-- "Descending second component": the order of `sort_values(ascending=False)`
on the mean column. -/
def meanGE (a b : String × ℚ) : Prop := b.2 ≤ a.2

instance : DecidableRel meanGE := fun a b => inferInstanceAs (Decidable (b.2 ≤ a.2))

instance : IsTotal (String × ℚ) meanGE := ⟨fun a b => le_total b.2 a.2⟩

instance : IsTrans (String × ℚ) meanGE := ⟨fun _ _ _ h1 h2 => le_trans h2 h1⟩

/-- `service_satisfaction` (line 103): group means per service sorted by
descending mean.  pandas' `sort_values` uses quicksort, whose order on tied
means is unspecified; the embedding fixes a concrete comparison sort. -/
def service_satisfaction (rows : List Record) : List (String × ℚ) :=
  List.insertionSort meanGE (serviceMeans rows)

/-- The five labels of the `age_group` categorical, in category order. -/
def ageCategories : List String := ["0-18", "19-35", "36-50", "51-65", "65+"]

/-- `filtered_df.groupby('age_group')['satisfaction'].mean()` (line 177).
`age_group` is the categorical column produced by `pd.cut`, and pandas'
`groupby` on a categorical with its default `observed=False` emits **every**
category in category order, giving `NaN` (here `none`) for a category with
no rows; rows whose `age_group` is `NaN` (age ≤ 0 or age > 100) belong to
no group and are dropped. -/
def age_group_satisfaction (rows : List Record) : List (String × Option ℚ) :=
  ageCategories.map (fun k =>
    (k, meanOpt ((rows.filter (fun r => age_group r.age = some k)).map satQ)))

/-- The characters Python's `re` module treats specially inside a pattern
(`. ^ $ * + ? { } [ ] \\ | ( )`). -/
def regexMeta : List Char :=
  ['.', '^', '$', '*', '+', '?', '\x7b', '\x7d', '[', ']', '\x5c', '|', '(', ')']

/-- One character of a Python regular expression against one subject
character, under `re.IGNORECASE`, for patterns built from literal
characters and the `.` metacharacter — the fragment this embedding
models: `.` matches any character, a literal matches up to case.  A
pattern containing any *other* metacharacter of `regexMeta` lies outside
the modelled fragment (this function would treat it as a literal where
Python would not), so every theorem about non-`.` search terms restricts
to terms free of all of `regexMeta`. -/
def charMatch (p c : Char) : Bool := p = '.' || p.toLower = c.toLower

/-- Does the pattern match a prefix of the subject (Python `re.match` on
this pattern fragment)? -/
def matchHere : List Char → List Char → Bool
  | [], _ => true
  | _ :: _, [] => false
  | p :: ps, c :: cs => charMatch p c && matchHere ps cs

/-- Python `re.search`: does the pattern match starting at any position of
the subject? -/
def regexSearch (pat : List Char) : List Char → Bool
  | [] => matchHere pat []
  | c :: cs => matchHere pat (c :: cs) || regexSearch pat cs

/-- `Series.str.contains(term, case=False, na=False)` on one cell
(line 195): pandas' default `regex=True` compiles the search term as a
regular expression and runs `re.search` with `re.IGNORECASE`.  Faithful
to Python exactly for terms built from literal characters and `.` (see
`charMatch`); terms containing other regex metacharacters are outside
the model and outside every hypothesis stated about it. -/
def strContains (s pat : String) : Bool := regexSearch pat.data s.data

/-- Lines 194-197: a non-empty search term keeps the rows of the filtered
view whose `name` matches; `na=False` makes a missing name never match;
the empty term (Python falsy) leaves the filtered view untouched. -/
def search_df (fdf : List Record) (term : String) : List Record :=
  if term = "" then fdf
  else fdf.filter (fun r =>
    match r.name with
    | none => false
    | some n => strContains n term)

/-- Case-insensitive **literal** substring matching, written from the
spec's words ("case-insensitive substring match against `name`") to compare
with the code's regex-based `strContains`: prefix test after lowering. -/
def litHere : List Char → List Char → Bool
  | [], _ => true
  | _ :: _, [] => false
  | p :: ps, c :: cs => p = c && litHere ps cs

/-- Literal substring occurrence at any position (spec-side). -/
def litSearch (pat : List Char) : List Char → Bool
  | [] => litHere pat []
  | c :: cs => litHere pat (c :: cs) || litSearch pat cs

/-- Spec-side name match: `term` occurs in `name` as a case-insensitive
literal substring. -/
def nameMatchSpec (term name : String) : Bool :=
  litSearch (term.data.map Char.toLower) (name.data.map Char.toLower)

/-- Centered cross-product sum `Σ (xᵢ - x̄)(yᵢ - ȳ)` of a list of paired
observations: the numerator of sample covariance (the `1/(n-1)` factor is
omitted because it cancels in the correlation ratio). -/
def covSum (p : List (ℚ × ℚ)) : ℚ :=
  (p.map (fun q => (q.1 - mean (p.map Prod.fst)) * (q.2 - mean (p.map Prod.snd)))).sum

/-- Centered square sum `Σ (xᵢ - x̄)²`: the numerator of sample variance. -/
def varSum (xs : List ℚ) : ℚ :=
  (xs.map (fun x => (x - mean xs) ^ 2)).sum

/-- `filtered_df['length_of_stay'].corr(filtered_df['satisfaction'])`
(line 144).  pandas computes `cov / (σx * σy)` in floating point and
returns `NaN` when either standard deviation is zero (constant column,
single row, or empty frame).  Square roots leave ℚ, so the value is kept
in exact parts: `some (c, v)` stands for the real number `c / Real.sqrt v`
(`v` is the product of the two variance sums, strictly positive whenever
the result is defined), and `none` is pandas' `NaN`.  In particular the
correlation lies in `[-1, 1]` exactly when `c ^ 2 ≤ v`, and
`corr(A,B) = corr(B,A)` exactly when the parts coincide. -/
def correlation (p : List (ℚ × ℚ)) : Option (ℚ × ℚ) :=
  if varSum (p.map Prod.fst) = 0 ∨ varSum (p.map Prod.snd) = 0 then none
  else some (covSum p, varSum (p.map Prod.fst) * varSum (p.map Prod.snd))

/-- The paired (length_of_stay, satisfaction) observations of a view. -/
def losSatPairs (rows : List Record) : List (ℚ × ℚ) :=
  rows.map (fun r => (losQ r, satQ r))

/-- "Descending count": the order of `value_counts`. -/
def countGE (a b : String × Nat) : Prop := b.2 ≤ a.2

instance : DecidableRel countGE := fun a b => inferInstanceAs (Decidable (b.2 ≤ a.2))

instance : IsTotal (String × Nat) countGE := ⟨fun a b => le_total b.2 a.2⟩

instance : IsTrans (String × Nat) countGE := ⟨fun _ _ _ h1 h2 => le_trans h2 h1⟩

/-- `filtered_df['service'].value_counts()` (line 221): occurrence count per
distinct value, ordered by descending count (standing on ascending keys, so
ties come out in ascending value order under a stable sort). -/
def value_counts (xs : List String) : List (String × Nat) :=
  List.insertionSort countGE ((groupKeys xs).map (fun v => (v, xs.count v)))

/-- One CSV cell, at the abstraction level of pandas' `read_csv` type
inference: the textual encoding (decimal digits, ISO dates, quoting) is
abstracted away, and the round-trip claims are settled at the level of
typed cells.  `na` is an empty cell (`NaN`). -/
inductive Cell where
  | int : Int → Cell
  | str : String → Cell
  | date : Int → Cell
  | na : Cell
deriving DecidableEq, Repr

/-- The seven columns of the input CSV, in file order (spec §6). -/
def rawCols : List String :=
  ["patient_id", "name", "age", "service", "arrival_date", "departure_date", "satisfaction"]

/-- Column order of the exported frame: the input columns, then
`length_of_stay` appended by `load_data` (line 23), then `age_group`
appended by line 173 before the export at line 206 runs. -/
def exportCols : List String := rawCols ++ ["length_of_stay", "age_group"]

/-- The cell a record holds in a named column (how `to_csv` serializes one
field; an unknown column name would be an empty cell). -/
def cellOf (r : Record) : String → Cell
  | "patient_id" => .int r.patient_id
  | "name" => (match r.name with | some n => .str n | none => .na)
  | "age" => .int r.age
  | "service" => .str r.service
  | "arrival_date" => .date r.arrival_date
  | "departure_date" => .date r.departure_date
  | "satisfaction" => .int r.satisfaction
  | "length_of_stay" => .int r.length_of_stay
  | "age_group" => (match r.age_group with | some g => .str g | none => .na)
  | _ => .na

/-- `search_df.to_csv(index=False)` (line 206): header `cols`, then one row
of cells per record, every column serialized. -/
def to_csv (cols : List String) (rows : List Record) : List (List Cell) :=
  rows.map (fun r => cols.map (cellOf r))

/-- Column access `row[col]` through the header, as `read_csv` aligns cells
to column names. -/
def getCell (header : List String) (cells : List Cell) (col : String) : Option Cell :=
  (header.findIdx? (fun c => c == col)).bind (fun i => cells[i]?)

/-- An integer-typed cell, as `read_csv` infers `int64`. -/
def asInt : Cell → Option Int
  | .int n => some n
  | _ => none

/-- A string-typed cell. -/
def asStr : Cell → Option String
  | .str s => some s
  | _ => none

/-- `pd.to_datetime` on a cell: succeeds on a well-formed date. -/
def asDate : Cell → Option Int
  | .date d => some d
  | _ => none

/-- A free-text cell that may be missing (`NaN`). -/
def asOptStr : Cell → Option (Option String)
  | .str s => some (some s)
  | .na => some none
  | _ => none

/-- One row of `load_data` (lines 17-24) applied to a parsed CSV file:
looks up the required columns by name (a missing column or ill-typed cell
is the `KeyError` / parse error, embedded as `none`), parses the two dates,
and overwrites `length_of_stay` with `departure_date - arrival_date` in
days.  An `age_group` column present in the file is kept as loaded data. -/
def parseRow (header : List String) (cells : List Cell) : Option Record := do
  let pid ← (getCell header cells "patient_id").bind asInt
  let nm ← (getCell header cells "name").bind asOptStr
  let ag ← (getCell header cells "age").bind asInt
  let sv ← (getCell header cells "service").bind asStr
  let arr ← (getCell header cells "arrival_date").bind asDate
  let dep ← (getCell header cells "departure_date").bind asDate
  let sat ← (getCell header cells "satisfaction").bind asInt
  let agrp := match getCell header cells "age_group" with
    | some (.str g) => some g
    | _ => none
  return { patient_id := pid, name := nm, age := ag, service := sv,
           arrival_date := arr, departure_date := dep, satisfaction := sat,
           length_of_stay := dep - arr, age_group := agrp }

/-- `load_data` (lines 17-24) on the contents of a CSV file: parse every
row against the header; any failing row fails the load. -/
def load_data (header : List String) (rows : List (List Cell)) : Option (List Record) :=
  rows.mapM (parseRow header)

/-- A dataframe as an entity with an observable column set: rows plus the
list of column names, for the frame-effect claims. -/
structure Frame where
  cols : List String
  rows : List Record
deriving DecidableEq, Repr

/-- Column set of the frame `load_data` returns: the CSV columns plus the
derived `length_of_stay`. -/
def loadedCols : List String := rawCols ++ ["length_of_stay"]

/-- The script's run-time state: the cached record store `df` and the
current `filtered_df` binding. -/
structure AppState where
  df : Frame
  filtered : Frame
deriving DecidableEq, Repr

/-- Lines 63-68 as a frame operation: boolean-mask selection makes a new
frame with the same columns and the passing rows. -/
def filterFrame (c : Criteria) (f : Frame) : Frame :=
  { cols := f.cols, rows := filtered_df f.rows c }

/-- The filter stage: rebinds `filtered` from the record store; `df`
itself is untouched. -/
def stageFilter (c : Criteria) (s : AppState) : AppState :=
  { s with filtered := filterFrame c s.df }

/-- Line 173, `filtered_df['age_group'] = pd.cut(...)`: column assignment
on the existing frame object — the filtered view itself gains the
`age_group` column (pandas emits a `SettingWithCopyWarning` here; the
mask-selected copy, not the record store, is the object written to). -/
def assignAgeGroup (f : Frame) : Frame :=
  { cols := f.cols ++ ["age_group"],
    rows := f.rows.map (fun r => { r with age_group := age_group r.age }) }

/-- The demographics (tab 3) stage: mutates the filtered view in place. -/
def stageTab3 (s : AppState) : AppState :=
  { s with filtered := assignAgeGroup s.filtered }

/-- The mutating stages of one interaction cycle, in script order (the
aggregation stages only read the state). -/
def runStages (c : Criteria) (s : AppState) : AppState :=
  stageTab3 (stageFilter c s)

/-- The four overview metrics of tab 1 (lines 83-97).  The means are `NaN`
(`none`) on an empty frame — Streamlit renders the string "nan", not an
error — but `mode()[0]` on an empty frame raises, so the whole overview is
`none` exactly when the filtered frame is empty. -/
structure Overview where
  avg_satisfaction : Option ℚ
  avg_stay : Option ℚ
  total_patients : Nat
  most_common : String
deriving DecidableEq, Repr

/-- Tab 1 (lines 83-97): `none` embeds the `KeyError` that
`filtered_df['service'].mode()[0]` raises on an empty filtered frame (the
insight block of lines 121-125 likewise raises `IndexError` on
`service_satisfaction.index[0]` there). -/
def tab1Overview (rows : List Record) : Option Overview :=
  match most_common_service rows with
  | none => none
  | some m => some
      { avg_satisfaction := meanOpt (rows.map satQ)
        avg_stay := meanOpt (rows.map losQ)
        total_patients := rows.length
        most_common := m }

/-- Everything the presentation layer consumes in one interaction cycle. -/
structure ViewModel where
  filtered : List Record
  overview : Option Overview
  serviceSat : List (String × ℚ)
  corr : Option (ℚ × ℚ)
  ageGroupSat : List (String × Option ℚ)
  searchRows : List Record
  exported : List (List Cell)
  serviceCounts : List (String × Nat)
deriving DecidableEq, Repr

/-- One full top-to-bottom run of the script body (lines 63-226) from a
loaded record store, a set of sidebar selections and a search term: filter,
the tab-1/2/3 aggregates, then — after line 173 has added `age_group` to
the filtered view — the search, the CSV export and the footer counts. -/
def render (df0 : List Record) (c : Criteria) (term : String) : ViewModel :=
  let fdf := filtered_df df0 c
  let fdf3 := fdf.map (fun r => { r with age_group := age_group r.age })
  let sdf := search_df fdf3 term
  { filtered := fdf
    overview := tab1Overview fdf
    serviceSat := service_satisfaction fdf
    corr := correlation (losSatPairs fdf)
    ageGroupSat := age_group_satisfaction fdf
    searchRows := sdf
    exported := to_csv exportCols sdf
    serviceCounts := value_counts (fdf3.map Record.service) }

/-- One session: load the CSV contents, then render under the given
selections (`none` when the load fails). -/
def runSession (header : List String) (csvRows : List (List Cell))
    (c : Criteria) (term : String) : Option ViewModel :=
  (load_data header csvRows).map (fun df0 => render df0 c term)

/-- A well-formed loaded record (its `length_of_stay` is the derived day
difference, its `age_group` not yet assigned), for concrete instances. -/
def mkRec (pid : Int) (nm : Option String) (ag : Int) (sv : String)
    (arr dep sat : Int) : Record :=
  { patient_id := pid, name := nm, age := ag, service := sv, arrival_date := arr,
    departure_date := dep, satisfaction := sat, length_of_stay := dep - arr,
    age_group := none }

/-- A sample loaded dataset. -/
def sampleDf : List Record :=
  [mkRec 1 (some "Ann") 30 "ER" 0 2 80,
   mkRec 2 (some "Bob") 70 "ICU" 10 15 60,
   mkRec 3 none 12 "ER" 3 3 90]

/-- Sidebar selections with every service deselected (the multiselect
allows removing all entries), bounds wide open. -/
def noServiceCrit : Criteria :=
  { services := [], age_min := 0, age_max := 120, min_satisfaction := 0 }

/-- Wide-open selections over the sample services. -/
def allCrit : Criteria :=
  { services := ["ER", "ICU"], age_min := 0, age_max := 120, min_satisfaction := 0 }

/-- A record with a plain name, for the search instances. -/
def bobRec : Record := mkRec 4 (some "Bob") 40 "ER" 0 1 70

/-- A second named record, matched by the search term "ann". -/
def annRec : Record := mkRec 5 (some "Annie") 25 "ER" 0 1 75

/-- A concrete session state after load, record store and filtered view
bound to the loaded frame. -/
def sampleState : AppState :=
  { df := { cols := loadedCols, rows := sampleDf },
    filtered := { cols := loadedCols, rows := sampleDf } }

/-- The services of the C7 tie instance, "B" first in the input. -/
def recB : Record := mkRec 6 (some "Carl") 40 "B" 0 1 50

/-- The tied second service "A", later in the input. -/
def recA : Record := mkRec 7 (some "Dana") 40 "A" 0 1 50

/-- A single record in the youngest age bucket, for the grouped-mean
instances. -/
def youngRec : Record := mkRec 8 (some "Eve") 10 "ER" 0 1 50

end Finalapp

namespace Finalapp

attribute [local semireducible] Rat.add Rat.mul Rat.inv Rat.sub Rat.ofScientific

/-- C1: the spec requires an empty filter result to yield zero records and
a "no data" aggregate state rather than an error, but the overview code
path raises: with every service deselected the filtered frame is empty and
`filtered_df['service'].mode()[0]` (line 96) raises `KeyError: 0`
(`mode()` of an empty series is empty), embedded as the overview aggregate
being `none` instead of any renderable "no data" state. -/
theorem emptyFilterOverviewRaises :
    filtered_df sampleDf noServiceCrit = [] ∧
    tab1Overview (filtered_df sampleDf noServiceCrit) = none ∧
    (render sampleDf noServiceCrit "").overview = none := by
  decide

/-- C2: a record is kept by `filtered_df` iff it is in the input, its
service is among the selected services, its age lies within the inclusive
bounds and its satisfaction meets the inclusive floor; an empty services
selection keeps nothing; and the output is a sublist of the input (hence
preserves its relative ordering, and an empty match is the empty list, not
an error). -/
theorem filtered_df_spec (df : List Record) (c : Criteria) :
    (∀ r, r ∈ filtered_df df c ↔
        r ∈ df ∧ r.service ∈ c.services ∧ c.age_min ≤ r.age ∧ r.age ≤ c.age_max ∧
          c.min_satisfaction ≤ r.satisfaction) ∧
    (c.services = [] → filtered_df df c = []) ∧
    List.Sublist (filtered_df df c) df := by
  refine ⟨fun r => ?_, fun h => ?_, List.filter_sublist df⟩
  · simp [filtered_df, List.mem_filter, passesFilter, and_assoc]
  · simp [filtered_df, passesFilter, h, List.filter_eq_nil_iff]

/-- Witness for C2 at a concrete instance: the inner hypothesis
(`services = []`) discharged at the sample dataset. -/
theorem filtered_df_spec_witness :
    filtered_df sampleDf noServiceCrit = [] :=
  (filtered_df_spec sampleDf noServiceCrit).2.1 rfl

/-- C3 counterexample: the claim says every non-negative age falls into
exactly one bucket, the first being [0,18] and the last unbounded; but
`pd.cut` with `bins=[0, 18, 35, 50, 65, 100]` forms left-open intervals,
so age 0 falls into no bucket (`NaN`), and so does any age above 100. -/
theorem age_group_zero_unbucketed :
    age_group 0 = none ∧ age_group 101 = none := by
  decide

/-- C3 (amended): `age_group` is a pure function of age given by the
left-open partition (0,18], (18,35], (35,50], (50,65], (65,100] — on
integer ages: [1,18], [19,35], [36,50], [51,65], [66,100] — and an age
of 0 or below, or above 100, falls into no bucket. -/
theorem age_group_buckets (a : Int) :
    (age_group a = some "0-18" ↔ 0 < a ∧ a ≤ 18) ∧
    (age_group a = some "19-35" ↔ 18 < a ∧ a ≤ 35) ∧
    (age_group a = some "36-50" ↔ 35 < a ∧ a ≤ 50) ∧
    (age_group a = some "51-65" ↔ 50 < a ∧ a ≤ 65) ∧
    (age_group a = some "65+" ↔ 65 < a ∧ a ≤ 100) ∧
    (age_group a = none ↔ a ≤ 0 ∨ 100 < a) := by
  unfold age_group
  split_ifs with h1 h2 h3 h4 h5 <;>
    refine ⟨?_, ?_, ?_, ?_, ?_, ?_⟩ <;> simp <;> omega

/-- Witness for C3 at a concrete age. -/
theorem age_group_buckets_witness : age_group 10 = some "0-18" :=
  (age_group_buckets 10).1.mpr (by decide)

/-- On a dot-free pattern, regex prefix matching under `IGNORECASE` is
literal prefix matching of the lowered strings. -/
lemma matchHere_no_dot (pat : List Char) (h : '.' ∉ pat) (s : List Char) :
    matchHere pat s = litHere (pat.map Char.toLower) (s.map Char.toLower) := by
  induction pat generalizing s with
  | nil => cases s <;> rfl
  | cons p ps ih =>
    cases s with
    | nil => rfl
    | cons c cs =>
      have hp : p ≠ '.' := fun hp => h (hp ▸ List.mem_cons_self _ _)
      have hps : '.' ∉ ps := fun hm => h (List.mem_cons_of_mem _ hm)
      simp [matchHere, litHere, charMatch, hp, ih hps cs]

/-- On a dot-free pattern, `re.search` under `IGNORECASE` is literal
substring occurrence of the lowered strings. -/
lemma regexSearch_no_dot (pat : List Char) (h : '.' ∉ pat) (s : List Char) :
    regexSearch pat s = litSearch (pat.map Char.toLower) (s.map Char.toLower) := by
  induction s with
  | nil => simp [regexSearch, litSearch, matchHere_no_dot pat h]
  | cons c cs ih => simp [regexSearch, litSearch, matchHere_no_dot pat h, ih]

/-- C4 counterexample: the claim says the search keeps exactly the records
whose name contains the search string as a case-insensitive **literal**
substring, but `str.contains` defaults to `regex=True`: the search term
"." keeps the record named "Bob" (the regex `.` matches any character)
although "Bob" does not contain a literal ".". -/
theorem search_dot_matches_bob :
    search_df [bobRec] "." = [bobRec] ∧ nameMatchSpec "." "Bob" = false := by
  decide

/-- C4 (amended): the name search is a case-insensitive **regular
expression** search (`str.contains` default); on search strings free of
every regex metacharacter (`. ^ $ * + ? { } [ ] \\ | ( )` — the fragment
on which the regex embedding is faithful to `re.search`) it coincides
with literal substring matching, so such a search keeps exactly the
records whose name contains the term literally up to case; an empty term
applies no name filtering; a missing name never matches a non-empty
term; and the search narrows the filtered view (composes with, rather
than replaces, the base criteria). -/
theorem search_df_spec (fdf : List Record) (term : String) :
    (term = "" → search_df fdf term = fdf) ∧
    (term ≠ "" → (∀ ch ∈ term.data, ch ∉ regexMeta) →
      ∀ r, r ∈ search_df fdf term ↔
        r ∈ fdf ∧ ∃ n, r.name = some n ∧ nameMatchSpec term n = true) ∧
    (∀ r, r.name = none → r ∈ search_df fdf term → term = "") ∧
    List.Sublist (search_df fdf term) fdf := by
  refine ⟨fun h => by simp [search_df, h], fun hne hmeta r => ?_, fun r hn hr => ?_, ?_⟩
  · have hdot : '.' ∉ term.data := fun hd => hmeta '.' hd (by decide)
    simp only [search_df, if_neg hne, List.mem_filter]
    constructor
    · rintro ⟨hr, hm⟩
      refine ⟨hr, ?_⟩
      cases hname : r.name with
      | none => rw [hname] at hm; exact absurd hm (by simp)
      | some n =>
        rw [hname] at hm
        refine ⟨n, rfl, ?_⟩
        rw [nameMatchSpec, ← regexSearch_no_dot term.data hdot n.data]
        exact hm
    · rintro ⟨hr, n, hname, hmatch⟩
      refine ⟨hr, ?_⟩
      rw [hname]
      rw [nameMatchSpec, ← regexSearch_no_dot term.data hdot n.data] at hmatch
      exact hmatch
  · by_contra hne
    rw [search_df, if_neg hne, List.mem_filter, hn] at hr
    exact absurd hr.2 (by simp)
  · rw [search_df]
    split
    · exact List.Sublist.refl fdf
    · exact List.filter_sublist fdf

/-- Witness for C4 at a concrete instance: the search term "ann" keeps the
record named "Annie" of the two-record filtered view. -/
theorem search_df_spec_witness :
    annRec ∈ search_df [bobRec, annRec] "ann" :=
  ((search_df_spec [bobRec, annRec] "ann").2.1 (by decide) (by decide) annRec).mpr
    (by refine ⟨by decide, "Annie", by decide, by decide⟩)

/-- C5 counterexample: the claim says no stage changes the filtered view
or its column set, but line 173 (`filtered_df['age_group'] = pd.cut(...)`)
assigns a new column on the existing filtered frame: after the
demographics stage the filtered view's column set differs from before. -/
theorem tab3_mutates_filtered_view :
    (stageTab3 sampleState).filtered.cols ≠ sampleState.filtered.cols ∧
    "age_group" ∈ (stageTab3 sampleState).filtered.cols := by
  decide

/-- C5 (amended): the record store is never changed by any stage, the
filter stage derives a fresh view (same columns, a subsequence of the
store's rows), and the only in-place change of the whole script is the
demographics stage extending the filtered view with the derived
`age_group` column, its rows kept (same records up to that one field, in
particular the same `patient_id` sequence). -/
theorem stages_frame_effects (c : Criteria) (s : AppState) :
    (runStages c s).df = s.df ∧
    (stageFilter c s).filtered.cols = s.df.cols ∧
    List.Sublist (stageFilter c s).filtered.rows s.df.rows ∧
    (stageTab3 s).filtered.cols = s.filtered.cols ++ ["age_group"] ∧
    (stageTab3 s).filtered.rows.map Record.patient_id
      = s.filtered.rows.map Record.patient_id := by
  refine ⟨rfl, rfl, List.filter_sublist _, rfl, ?_⟩
  simp [stageTab3, assignAgeGroup, List.map_map, Function.comp]

/-- C7 counterexample: the claim says a frequency tie is broken by first
occurrence in the input, but `Series.mode()` returns the tied values
sorted ascending and `[0]` picks the smallest: on services ["B", "A"]
(each of frequency one, "B" first) the code yields "A". -/
theorem mode_tie_not_first_occurrence :
    [recB, recA].map Record.service = ["B", "A"] ∧
    ([recB, recA].map Record.service).count "A"
      = ([recB, recA].map Record.service).count "B" ∧
    most_common_service [recB, recA] = some "A" := by
  decide

/-- A nonempty list of naturals attains its `foldr max 0`. -/
lemma foldr_max_mem (l : List Nat) (h : l ≠ []) : l.foldr max 0 ∈ l := by
  induction l with
  | nil => exact absurd rfl h
  | cons a t ih =>
    by_cases ht : t = []
    · subst ht; simp
    · have hfold : (a :: t).foldr max 0 = max a (t.foldr max 0) := rfl
      rcases max_choice a (t.foldr max 0) with hm | hm
      · rw [hfold, hm]; exact List.mem_cons_self _ _
      · rw [hfold, hm]; exact List.mem_cons_of_mem _ (ih ht)

/-- `foldr max 0` bounds every member. -/
lemma le_foldr_max (l : List Nat) : ∀ x ∈ l, x ≤ l.foldr max 0 := by
  induction l with
  | nil => intro x hx; cases hx
  | cons a t ih =>
    intro x hx
    rcases List.mem_cons.mp hx with rfl | hx
    · exact le_max_left _ _
    · exact le_trans (ih x hx) (le_max_right _ _)

/-- The head of the pandas mode list of a nonempty series: a value of
maximal frequency, least (in code-point order) among the tied values. -/
lemma modeList_head_spec (xs : List String) (h : xs ≠ []) :
    ∃ m, (modeList xs).head? = some m ∧ m ∈ xs ∧
      (∀ v ∈ xs, xs.count v ≤ xs.count m) ∧
      (∀ v ∈ xs, xs.count v = xs.count m → strLe m v) := by
  have hded : xs.dedup ≠ [] := by
    obtain ⟨a, ha⟩ := List.exists_mem_of_ne_nil xs h
    exact List.ne_nil_of_mem (List.mem_dedup.mpr ha)
  have hmax : ∃ v ∈ xs.dedup, xs.count v = maxCount xs := by
    have hmem := foldr_max_mem (xs.dedup.map xs.count)
      (by simpa [List.map_eq_nil_iff] using hded)
    rcases List.mem_map.mp hmem with ⟨v, hv, hc⟩
    exact ⟨v, hv, hc⟩
  obtain ⟨v, hv, hvc⟩ := hmax
  have hcount_le : ∀ w ∈ xs, xs.count w ≤ maxCount xs := by
    intro w hw
    exact le_foldr_max _ _ (List.mem_map.mpr ⟨w, List.mem_dedup.mpr hw, rfl⟩)
  have hsorted : (modeList xs).Pairwise strLe :=
    List.Pairwise.sublist (List.filter_sublist _)
      (List.sorted_insertionSort strLe xs.dedup)
  have hvmem : v ∈ modeList xs := by
    refine List.mem_filter.mpr ⟨?_, by simpa using hvc⟩
    exact ((List.perm_insertionSort strLe xs.dedup).mem_iff).mpr hv
  cases hml : modeList xs with
  | nil => rw [hml] at hvmem; cases hvmem
  | cons m t =>
    have hmmem : m ∈ modeList xs := hml ▸ List.mem_cons_self m t
    have hmcount : xs.count m = maxCount xs := by
      simpa using (List.mem_filter.mp hmmem).2
    have hmxs : m ∈ xs :=
      List.mem_dedup.mp
        (((List.perm_insertionSort strLe xs.dedup).mem_iff).mp
          (List.mem_filter.mp hmmem).1)
    refine ⟨m, rfl, hmxs, ?_, ?_⟩
    · intro w hw
      exact hmcount ▸ hcount_le w hw
    · intro w hw hwc
      have hwmode : w ∈ modeList xs := by
        refine List.mem_filter.mpr ⟨?_, by simp [hwc, hmcount]⟩
        exact ((List.perm_insertionSort strLe xs.dedup).mem_iff).mpr
          (List.mem_dedup.mpr hw)
      rw [hml] at hwmode
      rcases List.mem_cons.mp hwmode with rfl | hwt
      · exact le_refl (α := List Char) w.data
      · exact List.rel_of_pairwise_cons (hml ▸ hsorted) hwt

/-- C7 (amended): on a nonempty view, `most_common_service` returns an
observed service of maximal frequency, and a frequency tie is broken by
the value **least in code-point order** among the tied services (pandas
`mode()` sorts the tied values and `[0]` picks the smallest), not by first
occurrence in the input. -/
theorem most_common_service_spec (rows : List Record) (h : rows ≠ []) :
    ∃ m, most_common_service rows = some m ∧
      m ∈ rows.map Record.service ∧
      (∀ v ∈ rows.map Record.service,
        (rows.map Record.service).count v ≤ (rows.map Record.service).count m) ∧
      (∀ v ∈ rows.map Record.service,
        (rows.map Record.service).count v = (rows.map Record.service).count m →
          strLe m v) :=
  modeList_head_spec (rows.map Record.service)
    (by simpa [List.map_eq_nil_iff] using h)

/-- Witness for C7 at the sample dataset. -/
theorem most_common_service_spec_witness :
    sampleDf ≠ [] ∧
      ∃ m, most_common_service sampleDf = some m ∧
        m ∈ sampleDf.map Record.service ∧
        (∀ v ∈ sampleDf.map Record.service,
          (sampleDf.map Record.service).count v
            ≤ (sampleDf.map Record.service).count m) ∧
        (∀ v ∈ sampleDf.map Record.service,
          (sampleDf.map Record.service).count v
            = (sampleDf.map Record.service).count m → strLe m v) :=
  ⟨by decide, most_common_service_spec sampleDf (by decide)⟩

/-- A constant list sums to `length • value`, so replacing every element of
a nonempty list by the list's mean preserves the sum. -/
lemma sum_map_const_mean (vs : List ℚ) (h : vs ≠ []) :
    (vs.map (fun _ => mean vs)).sum = vs.sum := by
  have hlen : (vs.length : ℚ) ≠ 0 := by
    simpa [List.length_eq_zero] using h
  rw [List.map_const', List.sum_replicate, nsmul_eq_mul, mean]
  field_simp

/-- Some element of a nonempty list is at most the mean. -/
lemma exists_le_mean (vs : List ℚ) (h : vs ≠ []) : ∃ x ∈ vs, x ≤ mean vs := by
  have hsum : (vs.map (fun x => x)).sum ≤ (vs.map (fun _ => mean vs)).sum := by
    rw [List.map_id', sum_map_const_mean vs h]
  simpa using List.exists_le_of_sum_le h (fun x => x) (fun _ => mean vs) hsum

/-- The mean is at most some element of a nonempty list. -/
lemma exists_mean_le (vs : List ℚ) (h : vs ≠ []) : ∃ x ∈ vs, mean vs ≤ x := by
  have hsum : (vs.map (fun _ => mean vs)).sum ≤ (vs.map (fun x => x)).sum := by
    rw [List.map_id', sum_map_const_mean vs h]
  simpa using List.exists_le_of_sum_le h (fun _ => mean vs) (fun x => x) hsum

/-- C6 counterexample: the claim says a group absent from the input never
appears in `groupMean`'s result (no zero-filling) and that the result is
ordered by descending mean; but the per-age-group aggregation
(line 177) groups by the `pd.cut` categorical with pandas' default
`observed=False`: on a single record of the youngest bucket, every one of
the five categories appears, the four absent ones carrying `NaN`, in
category order rather than mean order. -/
theorem age_group_satisfaction_zero_fills :
    age_group_satisfaction [youngRec] =
      [("0-18", some 50), ("19-35", none), ("36-50", none),
       ("51-65", none), ("65+", none)] := by
  decide

/-- C6 (amended): the per-service aggregation maps exactly the observed
services (one entry per distinct observed service, none for an absent one)
to the mean of their satisfaction values, each mean bounded below and above
by some group member, and its display order is by descending mean (tied
means come out in an order the code leaves unspecified — quicksort); the
per-age-group aggregation instead emits **all five** age categories in
category order, `none` for groups without rows. -/
theorem service_satisfaction_spec (rows : List Record) :
    ((service_satisfaction rows).map Prod.fst).Perm (rows.map Record.service).dedup ∧
    (∀ p ∈ service_satisfaction rows,
      (∃ r ∈ rows, r.service = p.1) ∧
      (∃ x ∈ serviceVals rows p.1, x ≤ p.2) ∧
      (∃ x ∈ serviceVals rows p.1, p.2 ≤ x)) ∧
    (service_satisfaction rows).Pairwise meanGE ∧
    (age_group_satisfaction rows).map Prod.fst = ageCategories := by
  refine ⟨?_, fun p hp => ?_, ?_, ?_⟩
  · have h1 : ((service_satisfaction rows).map Prod.fst).Perm
        ((serviceMeans rows).map Prod.fst) :=
      (List.perm_insertionSort meanGE (serviceMeans rows)).map Prod.fst
    have h2 : (serviceMeans rows).map Prod.fst = groupKeys (rows.map Record.service) := by
      simp [serviceMeans, List.map_map, Function.comp_def]
    have h3 : (groupKeys (rows.map Record.service)).Perm (rows.map Record.service).dedup :=
      List.perm_insertionSort strLe _
    exact (h1.trans (h2 ▸ h3))
  · have hp' : p ∈ serviceMeans rows :=
      ((List.perm_insertionSort meanGE (serviceMeans rows)).mem_iff).mp hp
    rcases List.mem_map.mp hp' with ⟨k, hk, rfl⟩
    have hkxs : k ∈ rows.map Record.service :=
      List.mem_dedup.mp (((List.perm_insertionSort strLe _).mem_iff).mp hk)
    rcases List.mem_map.mp hkxs with ⟨r, hr, rfl⟩
    have hrv : satQ r ∈ serviceVals rows r.service :=
      List.mem_map.mpr ⟨r, List.mem_filter.mpr ⟨hr, by simp⟩, rfl⟩
    have hvne : serviceVals rows r.service ≠ [] := List.ne_nil_of_mem hrv
    exact ⟨⟨r, hr, rfl⟩, exists_le_mean _ hvne, exists_mean_le _ hvne⟩
  · exact List.sorted_insertionSort meanGE (serviceMeans rows)
  · simp [age_group_satisfaction, List.map_map, Function.comp_def]

/-- Witness for C6: on the sample dataset the aggregation carries the
entry ("ER", 85), whose mean 85 is bracketed by members of the ER group. -/
theorem service_satisfaction_spec_witness :
    (("ER", (85 : ℚ)) ∈ service_satisfaction sampleDf) ∧
      ((∃ r ∈ sampleDf, r.service = "ER") ∧
       (∃ x ∈ serviceVals sampleDf "ER", x ≤ (85 : ℚ)) ∧
       (∃ x ∈ serviceVals sampleDf "ER", (85 : ℚ) ≤ x)) :=
  ⟨by decide, (service_satisfaction_spec sampleDf).2.1 ("ER", 85) (by decide)⟩

/-- Parsing back one exported row recovers the record: the column lookups
against the export header find each serialized cell, and `length_of_stay`
is recomputed from the two date columns. -/
lemma parseRow_export (r : Record) :
    parseRow exportCols (exportCols.map (cellOf r)) =
      some { r with length_of_stay := r.departure_date - r.arrival_date } := by
  obtain ⟨pid, nm, ag, sv, arr, dep, sat, los, agrp⟩ := r
  cases nm <;> cases agrp <;> rfl

/-- Re-loading an exported view through `load_data` succeeds and is the
identity on views whose `length_of_stay` is already the derived day
difference. -/
lemma load_data_export (rows : List Record)
    (h : ∀ r ∈ rows, r.length_of_stay = r.departure_date - r.arrival_date) :
    load_data exportCols (to_csv exportCols rows) = some rows := by
  revert h
  induction rows with
  | nil => intro h; rfl
  | cons r t ih =>
    intro h
    have hr := h r (List.mem_cons_self r t)
    have ht : load_data exportCols (to_csv exportCols t) = some t :=
      ih (fun x hx => h x (List.mem_cons_of_mem _ hx))
    simp only [load_data, to_csv, List.map_cons, List.mapM_cons] at ht ⊢
    rw [parseRow_export r, ht]
    rw [← hr]
    rfl

/-- C8: exporting a view whose `length_of_stay` is the derived day
difference (as it is for every record the pipeline handles) and re-loading
the export through the Record Store loader succeeds and yields the same
`patient_id` sequence (hence the same set of ids), with each reloaded
record's `length_of_stay` equal to the exported one. -/
theorem export_roundtrip (rows : List Record)
    (h : ∀ r ∈ rows, r.length_of_stay = r.departure_date - r.arrival_date) :
    ∃ rs, load_data exportCols (to_csv exportCols rows) = some rs ∧
      rs.map Record.patient_id = rows.map Record.patient_id ∧
      rs.map Record.length_of_stay = rows.map Record.length_of_stay :=
  ⟨rows, load_data_export rows h, rfl, rfl⟩

/-- Witness for C8 at the sample dataset. -/
theorem export_roundtrip_witness :
    (∀ r ∈ sampleDf, r.length_of_stay = r.departure_date - r.arrival_date) ∧
      ∃ rs, load_data exportCols (to_csv exportCols sampleDf) = some rs ∧
        rs.map Record.patient_id = sampleDf.map Record.patient_id ∧
        rs.map Record.length_of_stay = sampleDf.map Record.length_of_stay :=
  ⟨by decide, export_roundtrip sampleDf (by decide)⟩

/-- A mapped list sum as a `Finset.range` sum over positions. -/
lemma map_sum_range {α : Type} (g : α → ℚ) (d : α) :
    ∀ l : List α, (l.map g).sum = ∑ i in Finset.range l.length, g (l.getD i d)
  | [] => by simp
  | a :: t => by
    rw [List.map_cons, List.sum_cons, List.length_cons, Finset.sum_range_succ',
      map_sum_range g d t]
    simp [List.getD_cons_succ, List.getD_cons_zero, add_comm]

/-- A centered square sum is nonnegative. -/
lemma varSum_nonneg (xs : List ℚ) : 0 ≤ varSum xs := by
  apply List.sum_nonneg
  intro x hx
  rcases List.mem_map.mp hx with ⟨y, _, rfl⟩
  positivity

/-- Swapping every pair leaves the centered cross-product sum unchanged. -/
lemma covSum_swap (p : List (ℚ × ℚ)) : covSum (p.map Prod.swap) = covSum p := by
  have h1 : (p.map Prod.swap).map Prod.fst = p.map Prod.snd := by
    rw [List.map_map]; rfl
  have h2 : (p.map Prod.swap).map Prod.snd = p.map Prod.fst := by
    rw [List.map_map]; rfl
  rw [covSum, covSum, List.map_map, h1, h2]
  apply congrArg List.sum
  apply List.map_congr_left
  intro q hq
  simp only [Function.comp_apply, Prod.fst_swap, Prod.snd_swap]
  ring

/-- Cauchy-Schwarz for the centered sums: the squared cross-product sum is
at most the product of the two square sums. -/
lemma covSum_sq_le (p : List (ℚ × ℚ)) :
    covSum p ^ 2 ≤ varSum (p.map Prod.fst) * varSum (p.map Prod.snd) := by
  have hcov : covSum p = ∑ i in Finset.range p.length,
      ((p.getD i (0, 0)).1 - mean (p.map Prod.fst))
        * ((p.getD i (0, 0)).2 - mean (p.map Prod.snd)) :=
    map_sum_range _ (0, 0) p
  have hvx : varSum (p.map Prod.fst) = ∑ i in Finset.range p.length,
      ((p.getD i (0, 0)).1 - mean (p.map Prod.fst)) ^ 2 := by
    rw [varSum, List.map_map]
    exact map_sum_range _ (0, 0) p
  have hvy : varSum (p.map Prod.snd) = ∑ i in Finset.range p.length,
      ((p.getD i (0, 0)).2 - mean (p.map Prod.snd)) ^ 2 := by
    rw [varSum, List.map_map]
    exact map_sum_range _ (0, 0) p
  rw [hcov, hvx, hvy]
  exact Finset.sum_mul_sq_le_sq_mul_sq (Finset.range p.length) _ _

/-- C9: the Pearson correlation of the code (kept in exact parts
`some (c, v)`, standing for the real value `c / √v`) is symmetric in its
two fields; whenever it is defined the value lies in [-1, 1] — here
`c ^ 2 ≤ v` with `0 < v`, which is exactly `(c / √v) ^ 2 ≤ 1` — and it is
undefined (`NaN`, not zero) exactly when either field has zero variance
over the view (including the empty and single-row views). -/
theorem correlation_spec (p : List (ℚ × ℚ)) :
    correlation (p.map Prod.swap) = correlation p ∧
    (∀ c v, correlation p = some (c, v) → c ^ 2 ≤ v ∧ 0 < v) ∧
    (correlation p = none ↔
      varSum (p.map Prod.fst) = 0 ∨ varSum (p.map Prod.snd) = 0) := by
  have h1 : (p.map Prod.swap).map Prod.fst = p.map Prod.snd := by
    rw [List.map_map]; rfl
  have h2 : (p.map Prod.swap).map Prod.snd = p.map Prod.fst := by
    rw [List.map_map]; rfl
  refine ⟨?_, fun c v hcv => ?_, ?_⟩
  · rw [correlation, correlation, h1, h2, covSum_swap]
    by_cases hx : varSum (p.map Prod.fst) = 0 <;>
      by_cases hy : varSum (p.map Prod.snd) = 0 <;>
        simp [hx, hy, mul_comm]
  · rw [correlation] at hcv
    split_ifs at hcv with h0
    have hx0 : varSum (p.map Prod.fst) ≠ 0 := fun hx => h0 (Or.inl hx)
    have hy0 : varSum (p.map Prod.snd) ≠ 0 := fun hy => h0 (Or.inr hy)
    obtain ⟨hc, hv⟩ := Prod.mk.inj (Option.some.inj hcv)
    subst hc
    subst hv
    exact ⟨covSum_sq_le p,
      mul_pos ((varSum_nonneg _).lt_of_ne (Ne.symm hx0))
        ((varSum_nonneg _).lt_of_ne (Ne.symm hy0))⟩
  · rw [correlation]
    split_ifs with h0 <;> simp [h0]

/-- Witness for C9: on the two perfectly correlated observations (0,0),
(1,1) the correlation parts are defined and satisfy the bounds. -/
theorem correlation_spec_witness :
    correlation [((0 : ℚ), (0 : ℚ)), (1, 1)] = some (1/2, 1/4) ∧
      ((1 : ℚ)/2) ^ 2 ≤ 1/4 ∧ (0 : ℚ) < 1/4 :=
  ⟨by decide, (correlation_spec [((0 : ℚ), (0 : ℚ)), (1, 1)]).2.1 (1/2) (1/4) (by decide)⟩

/-- C10: one interaction cycle is a pure function of the CSV contents, the
sidebar selections and the search term: two runs over equal CSV contents
with equal selections and equal search terms produce element-for-element
equal filtered views and equal aggregates (overview metrics, service
means, correlation, age-group means, search result, exported CSV cells,
value counts). -/
theorem pipeline_deterministic (h₁ h₂ : List String) (r₁ r₂ : List (List Cell))
    (c₁ c₂ : Criteria) (t₁ t₂ : String)
    (hh : h₁ = h₂) (hr : r₁ = r₂) (hc : c₁ = c₂) (ht : t₁ = t₂) :
    runSession h₁ r₁ c₁ t₁ = runSession h₂ r₂ c₂ t₂ := by
  subst hh
  subst hr
  subst hc
  subst ht
  rfl

/-- Witness for C10 at a concrete session. -/
theorem pipeline_deterministic_witness :
    runSession exportCols (to_csv exportCols sampleDf) allCrit "" =
      runSession exportCols (to_csv exportCols sampleDf) allCrit "" :=
  pipeline_deterministic exportCols exportCols (to_csv exportCols sampleDf)
    (to_csv exportCols sampleDf) allCrit allCrit "" "" rfl rfl rfl rfl

end Finalapp
